import Mathlib

/-!
Shallow embedding of the gdrive-sync pipeline (webhook listener, S3 worker,
auto-sync scheduler, Redis cursor store) in Lean 4, with theorems settling the
specification claims.  Every definition is translated from the Python source;
external libraries (unicodedata, ipaddress, pika, boto3, redis, the Google
Drive client) are modelled at their interfaces.
-/

namespace GdriveSync

/-! ## Python string primitives

The worker manipulates Python `str` values.  We model a Python string as its
list of characters and translate `str.replace`, the `in` substring test and
`str.strip` character by character.
-/

/-- Core of Python's `str.replace(pat, repl)`: scan left to right, replacing
non-overlapping occurrences of `pat`.  The second argument is a skip counter
that makes the recursion structural: when a match is found, the `repl` text is
emitted and the remaining `pat.length - 1` matched characters are consumed one
by one (`strReplaceGo_skip` shows this equals continuing on
`rest.drop (pat.length - 1)`).  The empty pattern (never used by the source)
is treated as a no-op. -/
def strReplaceGo (pat repl : List Char) : List Char → Nat → List Char
  | [], _ => []
  | _ :: rest, skip + 1 => strReplaceGo pat repl rest skip
  | c :: rest, 0 =>
    if pat ≠ [] ∧ pat.isPrefixOf (c :: rest) then
      repl ++ strReplaceGo pat repl rest (pat.length - 1)
    else
      c :: strReplaceGo pat repl rest 0

/-- Python `s.replace(pat, repl)` on the character-list representation. -/
def strReplace (pat repl l : List Char) : List Char :=
  strReplaceGo pat repl l 0

/-- Python's substring test `pat in s`. -/
def containsSub (pat : List Char) : List Char → Bool
  | [] => pat.isEmpty
  | c :: rest => pat.isPrefixOf (c :: rest) || containsSub pat rest

/-- Python `s.strip(x)` for a single strip character `x`: remove every copy of
`x` from both ends. -/
def stripChar (x : Char) (l : List Char) : List Char :=
  ((l.dropWhile (· == x)).reverse.dropWhile (· == x)).reverse

/-! ## `sanitize_ascii` (s3_worker.py, lines 26–32)

`unicodedata.normalize('NFKD', value).encode('ascii', 'ignore').decode('ascii')`.
`unicodedata` is an external standard-library collaborator; we model NFKD at
its interface: ASCII characters are NFKD-invariant (a fact of Unicode), and
each non-ASCII character decomposes to some sequence of characters, shown here
with a few representative table entries (the subsequent ASCII filter discards
whatever non-ASCII characters remain, exactly as `encode('ascii', 'ignore')`
does). -/

/-- Model of `unicodedata.normalize('NFKD', ·)` applied to one character. -/
def nfkdChar (c : Char) : List Char :=
  if c.toNat ≤ 127 then [c]
  else if c = 'é' then ['e', Char.ofNat 0x301]
  else if c = 'ü' then ['u', Char.ofNat 0x308]
  else if c = 'ş' then ['s', Char.ofNat 0x327]
  else [c]

/-- `sanitize_ascii` from s3_worker.py: NFKD-normalize, then drop every
non-ASCII character. -/
def sanitize_ascii (s : String) : String :=
  ⟨(s.data.flatMap nfkdChar).filter (fun c => c.toNat ≤ 127)⟩

/-! ## `sanitize_filename` (s3_worker.py, lines 34–67) -/

/-- The characters replaced with `'_'` by `sanitize_filename`, in source
order: space then `/ \ ? # [ ] @ ! $ & ' ( ) * + , ; =`. -/
def badChars : List Char :=
  [' ', '/', '\\', '?', '#', '[', ']', '@', '!', '$', '&', '\'', '(', ')',
   '*', '+', ',', ';', '=']

/-- The nineteen successive `safe_name.replace(c, '_')` lines of
`sanitize_filename`. -/
def applyReplacements (l : List Char) : List Char :=
  let s1 := strReplace [' '] ['_'] l
  let s2 := strReplace ['/'] ['_'] s1
  let s3 := strReplace ['\\'] ['_'] s2
  let s4 := strReplace ['?'] ['_'] s3
  let s5 := strReplace ['#'] ['_'] s4
  let s6 := strReplace ['['] ['_'] s5
  let s7 := strReplace [']'] ['_'] s6
  let s8 := strReplace ['@'] ['_'] s7
  let s9 := strReplace ['!'] ['_'] s8
  let s10 := strReplace ['$'] ['_'] s9
  let s11 := strReplace ['&'] ['_'] s10
  let s12 := strReplace ['\''] ['_'] s11
  let s13 := strReplace ['('] ['_'] s12
  let s14 := strReplace [')'] ['_'] s13
  let s15 := strReplace ['*'] ['_'] s14
  let s16 := strReplace ['+'] ['_'] s15
  let s17 := strReplace [','] ['_'] s16
  let s18 := strReplace [';'] ['_'] s17
  let s19 := strReplace ['='] ['_'] s18
  s19

/-- Fuel-driven model of the loop
`while '__' in safe_name: safe_name = safe_name.replace('__', '_')`.
Each iteration that fires strictly shortens the string
(`strReplace_dd_length_lt`), so fuel `l.length` always suffices for the loop
to reach its exit condition (`collapseUnderscores_no_dd`). -/
def collapseAux : Nat → List Char → List Char
  | 0, l => l
  | fuel + 1, l =>
    if containsSub ['_', '_'] l then
      collapseAux fuel (strReplace ['_', '_'] ['_'] l)
    else
      l

/-- The `while '__' in safe_name` collapse loop of `sanitize_filename`. -/
def collapseUnderscores (l : List Char) : List Char :=
  collapseAux l.length l

/-- `sanitize_filename` from s3_worker.py: ASCII-fold, replace unsafe
characters with `'_'`, collapse repeated underscores, strip leading/trailing
underscores, and fall back to `'unnamed_file'` when nothing is left. -/
def sanitize_filename (s : String) : String :=
  let safe0 := (sanitize_ascii s).data
  let replaced := applyReplacements safe0
  let collapsed := collapseUnderscores replaced
  let stripped := stripChar '_' collapsed
  if stripped.isEmpty then "unnamed_file" else ⟨stripped⟩

/-- The fold view of the nineteen replacement lines. -/
def foldReplacements (bs : List Char) (l : List Char) : List Char :=
  bs.foldl (fun acc b => strReplace [b] ['_'] acc) l

/-- The character class `[A-Za-z0-9_]` plus dot named by the specification's
sanitization property (spec §8, second bullet).  Defined here only to state
that property; the source has no corresponding check. -/
def specSafeChar (c : Char) : Bool :=
  ('A' ≤ c && c ≤ 'Z') || ('a' ≤ c && c ≤ 'z') || ('0' ≤ c && c ≤ '9') ||
    c == '_' || c == '.'

/-! ## Processing timestamps

The worker stamps every storage key with
`datetime.now().strftime("%Y/%m/%d/%H%M%S")` (s3_worker.py, lines 191 and
405).  A Python `datetime` value carries microseconds, which the format string
discards.  Because C `strftime` padding of `%Y` below year 1000 is
platform-dependent, validity restricts to four-digit years. -/

/-- A Python `datetime.datetime` value (seconds resolution plus microseconds). -/
structure PyDateTime where
  year : Nat
  month : Nat
  day : Nat
  hour : Nat
  minute : Nat
  second : Nat
  microsecond : Nat
deriving DecidableEq, Repr

/-- Field bounds of a real (four-digit-year) `datetime` value. -/
abbrev PyDateTime.Valid (t : PyDateTime) : Prop :=
  1000 ≤ t.year ∧ t.year ≤ 9999 ∧ 1 ≤ t.month ∧ t.month ≤ 12 ∧
  1 ≤ t.day ∧ t.day ≤ 31 ∧ t.hour ≤ 23 ∧ t.minute ≤ 59 ∧ t.second ≤ 59 ∧
  t.microsecond ≤ 999999

/-- The second-resolution part of a `datetime`, i.e. what `%Y/%m/%d/%H%M%S`
can see. -/
def PyDateTime.truncSec (t : PyDateTime) : Nat × Nat × Nat × Nat × Nat × Nat :=
  (t.year, t.month, t.day, t.hour, t.minute, t.second)

def digitChar (d : Nat) : Char := Char.ofNat (48 + d)

/-- Zero-padded two-digit decimal rendering (`%m`, `%d`, `%H`, `%M`, `%S`). -/
def pad2 (n : Nat) : List Char := [digitChar (n / 10), digitChar (n % 10)]

/-- Zero-padded four-digit decimal rendering (`%Y`). -/
def pad4 (n : Nat) : List Char :=
  [digitChar (n / 1000), digitChar (n / 100 % 10), digitChar (n / 10 % 10),
   digitChar (n % 10)]

/-- `t.strftime("%Y/%m/%d/%H%M%S")`. -/
def strftimePath (t : PyDateTime) : List Char :=
  pad4 t.year ++ '/' :: (pad2 t.month ++ '/' :: (pad2 t.day ++ '/' ::
    (pad2 t.hour ++ pad2 t.minute ++ pad2 t.second)))

/-! ## The S3 worker (s3_worker.py)

The Google Drive client, boto3 and pika are external collaborators.  Drive
downloads are an oracle `download : String → Option (List Nat)` mirroring
`GoogleDriveManager.download_file`, which returns the bytes or `None` on any
failure.  An S3 `put_object` call is recorded as an `S3Put` (its key and
content type); object bodies and header metadata do not matter to any claim.
-/

/-- One document listed by `GoogleDriveManager.get_folder_files`
(`files(id, name, mimeType, modifiedTime, size)`). -/
structure DriveFile where
  id : String
  name : String
  mimeType : String
  modifiedTime : String
  size : Option Nat
deriving DecidableEq, Repr

/-- One `put_object` call: the S3 key and the content type. -/
structure S3Put where
  key : List Char
  contentType : String
deriving DecidableEq, Repr

/-- The `mime_to_ext` table of `S3Worker.add_appropriate_extension`. -/
def mime_to_ext : List (String × String) :=
  [("application/vnd.google-apps.document", ".docx"),
   ("application/vnd.google-apps.spreadsheet", ".xlsx"),
   ("application/vnd.google-apps.presentation", ".pptx"),
   ("application/vnd.google-apps.drawing", ".png"),
   ("application/vnd.google-apps.script", ".gs"),
   ("application/vnd.google-apps.site", ".html"),
   ("application/vnd.google-apps.form", ".json"),
   ("application/vnd.openxmlformats-officedocument.wordprocessingml.document", ".docx"),
   ("application/vnd.openxmlformats-officedocument.spreadsheetml.sheet", ".xlsx"),
   ("application/vnd.openxmlformats-officedocument.presentationml.presentation", ".pptx"),
   ("application/msword", ".doc"),
   ("application/vnd.ms-excel", ".xls"),
   ("application/vnd.ms-powerpoint", ".ppt"),
   ("application/pdf", ".pdf"),
   ("image/jpeg", ".jpg"),
   ("image/png", ".png"),
   ("image/gif", ".gif"),
   ("image/bmp", ".bmp"),
   ("image/svg+xml", ".svg"),
   ("image/webp", ".webp"),
   ("text/plain", ".txt"),
   ("text/html", ".html"),
   ("text/css", ".css"),
   ("text/javascript", ".js"),
   ("text/csv", ".csv"),
   ("application/json", ".json"),
   ("application/xml", ".xml"),
   ("text/xml", ".xml"),
   ("application/zip", ".zip"),
   ("application/x-rar-compressed", ".rar"),
   ("application/x-7z-compressed", ".7z"),
   ("application/gzip", ".gz"),
   ("audio/mpeg", ".mp3"),
   ("audio/wav", ".wav"),
   ("audio/ogg", ".ogg"),
   ("audio/mp4", ".m4a"),
   ("video/mp4", ".mp4"),
   ("video/avi", ".avi"),
   ("video/quicktime", ".mov"),
   ("video/webm", ".webm"),
   ("application/rtf", ".rtf"),
   ("application/epub+zip", ".epub")]

/-- Model of Python `str.lower()` (ASCII range; the table's extensions are all
ASCII, so non-ASCII case folding never matters here). -/
def toLowerAscii (s : String) : String :=
  ⟨s.data.map fun c =>
    if 'A' ≤ c ∧ c ≤ 'Z' then Char.ofNat (c.toNat + 32) else c⟩

/-- Python `a.startswith(p)`. -/
def startsWithStr (p a : String) : Bool := p.data.isPrefixOf a.data

/-- Python `a.endswith(suffix)`. -/
def endsWithStr (suffix a : String) : Bool := suffix.data.isSuffixOf a.data

/-- `S3Worker.add_appropriate_extension`: append the extension mapped from the
MIME type unless the (lowercased) name already ends with it. -/
def add_appropriate_extension (file_name mime_type : String) : String :=
  let file_ext := (mime_to_ext.lookup mime_type).getD ""
  if file_ext ≠ "" ∧
      ¬ endsWithStr (toLowerAscii file_ext) (toLowerAscii file_name) = true then
    file_name ++ file_ext
  else
    file_name

/-- The `export_mime_types` table inside `S3Worker.upload_to_s3`. -/
def export_mime_types : List (String × String) :=
  [("application/vnd.google-apps.document",
    "application/vnd.openxmlformats-officedocument.wordprocessingml.document"),
   ("application/vnd.google-apps.spreadsheet",
    "application/vnd.openxmlformats-officedocument.spreadsheetml.sheet"),
   ("application/vnd.google-apps.presentation",
    "application/vnd.openxmlformats-officedocument.presentationml.presentation"),
   ("application/vnd.google-apps.drawing", "image/png")]

/-- Content-type resolution of `S3Worker.upload_to_s3`: Google Workspace MIME
types are swapped for their export format's MIME type. -/
def resolveContentType (mime_type : String) : String :=
  if startsWithStr "application/vnd.google-apps" mime_type then
    (export_mime_types.lookup mime_type).getD "application/octet-stream"
  else
    mime_type

/-- `S3Worker.upload_to_s3` as the `put_object` call it performs. -/
def upload_to_s3 (s3_key : List Char) (mime_type : String) : S3Put :=
  ⟨s3_key, resolveContentType mime_type⟩

/-- The audit-record key of `S3Worker.create_metadata_file`:
`s3_key.replace('/files/', '/metadata/') + '.json'`. -/
def metadataKeyOf (s3_key : List Char) : List Char :=
  strReplace "/files/".data "/metadata/".data s3_key ++ ".json".data

/-- `S3Worker.create_metadata_file` as the `put_object` call it performs. -/
def create_metadata_file (s3_key : List Char) : S3Put :=
  ⟨metadataKeyOf s3_key, "application/json"⟩

/-- The storage key computed in `S3Worker.sync_file_to_s3`:
`f"gdrive-sync/files/{timestamp}_{safe_filename}"`. -/
def s3FileKey (t : PyDateTime) (safe_filename : List Char) : List Char :=
  "gdrive-sync/files/".data ++ strftimePath t ++ '_' :: safe_filename

/-- `S3Worker.sync_file_to_s3`: add the extension, download, build the safe
key, upload the object and its audit record.  Returns the success flag
(`False` when the download returned `None`) together with the `put_object`
calls performed. -/
def sync_file_to_s3 (download : String → Option (List Nat)) (t : PyDateTime)
    (f : DriveFile) : Bool × List S3Put :=
  let file_name_with_ext := add_appropriate_extension f.name f.mimeType
  match download f.id with
  | none => (false, [])
  | some _ =>
    let safe_filename := (sanitize_filename file_name_with_ext).data
    let s3_key := s3FileKey t safe_filename
    (true, [upload_to_s3 s3_key f.mimeType, create_metadata_file s3_key])

/-- `S3Worker.create_webhook_event_file` as the `put_object` call it performs:
`f"gdrive-sync/webhook-events/{timestamp}_no_files.txt"`, plain text. -/
def create_webhook_event_file (t : PyDateTime) : S3Put :=
  ⟨"gdrive-sync/webhook-events/".data ++ strftimePath t ++ "_no_files.txt".data,
   "text/plain"⟩

/-- The queue acknowledgement decision taken by `process_message`:
`basic_ack`, or `basic_nack(requeue=...)`. -/
inductive AckDecision where
  | ack : AckDecision
  | nack (requeue : Bool) : AckDecision
deriving DecidableEq, Repr

/-- The message published by the webhook endpoint and consumed by the worker
(the `message` dict of webhook_app.py, lines 163–171; the `headers` echo field
is omitted as no consumer reads it). -/
structure WebhookMessage where
  event_id : Option String
  event_type : String
  resource_state : Option String
  resource_id : String
  timestamp : String
  client_ip : String
deriving DecidableEq, Repr

/-- The observable outcome of `S3Worker.process_message` on one delivery. -/
structure ProcessResult where
  decision : AckDecision
  puts : List S3Put
  success_count : Nat
deriving DecidableEq, Repr

/-- `S3Worker.process_message`: parse the body (`none` models a `json.loads`
failure, the one step of the handler that can raise), list the folder
(`get_folder_files` returns `[]` on listing errors — it catches them), sync
each file or write the empty-folder marker, then ack; an escaped exception
nacks with `requeue=False`. -/
def process_message (download : String → Option (List Nat)) (t : PyDateTime)
    (body : Option WebhookMessage) (files : List DriveFile) : ProcessResult :=
  match body with
  | none => ⟨.nack false, [], 0⟩
  | some _ =>
    if ¬ files.isEmpty = true then
      let results := files.map (sync_file_to_s3 download t)
      ⟨.ack, results.flatMap (fun r => r.2), results.countP (fun r => r.1)⟩
    else
      ⟨.ack, [create_webhook_event_file t], 0⟩

/-! ## The webhook listener (webhook_app.py)

Flask and `ipaddress` are external collaborators: a request is its client IP
(as the canonical address string `ipaddress` parses it to) and its header
dictionary; `RabbitMQManager.publish_message` is the boolean outcome
`publish_ok`; `datetime.utcnow().isoformat() + 'Z'` is the parameter `now`. -/

/-- A request's header dictionary. -/
abbrev Headers := List (String × String)

def headerGet (headers : Headers) (k : String) : Option String :=
  headers.lookup k

/-- The `valid_states` list of `WebhookValidator.validate_headers`. -/
def valid_states : List String :=
  ["sync", "update", "exists", "not_exists", "trash", "untrash"]

/-- `WebhookValidator.validate_headers`: token must equal the configured
verification token, `X-Goog-Channel-Id` and `X-Goog-Resource-State` must be
present, and the resource state must be in `valid_states`. -/
def validate_headers (verification_token : String) (headers : Headers) : Bool :=
  let token := headerGet headers "X-Goog-Channel-Token"
  if token ≠ some verification_token then false
  else if (headerGet headers "X-Goog-Channel-Id").isNone then false
  else if (headerGet headers "X-Goog-Resource-State").isNone then false
  else
    match headerGet headers "X-Goog-Resource-State" with
    | some resource_state => valid_states.contains resource_state
    | none => false

/-- `WebhookValidator.validate_ip`: membership of the parsed client address in
the parsed allow-list (`ipaddress` modelled as canonical address strings). -/
def validate_ip (allowed_ips : List String) (client_ip : String) : Bool :=
  allowed_ips.contains client_ip

/-- An HTTP response of the endpoint paired with the list of messages that
reached the queue (empty when the publish failed or was never attempted). -/
structure WebhookResponse where
  status : Nat
  published : List WebhookMessage
deriving DecidableEq, Repr

/-- The `POST /webhook` handler: the `require_valid_ip` decorator (403), then
`validate_headers` (400), then construct the message and publish it — 200 on
publish success, 500 on publish failure. -/
def webhook (allowed_ips : List String) (verification_token : String)
    (client_ip : String) (headers : Headers) (publish_ok : Bool)
    (now : String) : WebhookResponse :=
  if ¬ validate_ip allowed_ips client_ip = true then ⟨403, []⟩
  else if ¬ validate_headers verification_token headers = true then ⟨400, []⟩
  else
    let message : WebhookMessage :=
      { event_id := headerGet headers "X-Goog-Channel-Id"
        event_type := "webhook_received"
        resource_state := headerGet headers "X-Goog-Resource-State"
        resource_id := (headerGet headers "X-Goog-Resource-ID").getD ""
        timestamp := now
        client_ip := client_ip }
    if publish_ok then ⟨200, [message]⟩ else ⟨500, []⟩

/-! ## The auto-sync scheduler (scheduler/auto_sync.py) -/

/-- `AutoSyncScheduler.get_files_modified_after`: the Drive query result, with
query errors caught and turned into an empty list. -/
def get_files_modified_after (query_result : Except Unit (List DriveFile)) :
    List DriveFile :=
  match query_result with
  | .ok files => files
  | .error _ => []

/-- The cursor update performed by one `AutoSyncScheduler.check_for_changes`
cycle: `last_sync_time` is replaced by `now` exactly when at least one
modified file was found and the webhook trigger succeeded; the per-cycle
timestamps of the found files never enter the computation. -/
def check_for_changes (last_sync_time : String)
    (query_result : Except Unit (List DriveFile)) (webhook_ok : Bool)
    (now : String) : String :=
  let modified_files := get_files_modified_after query_result
  if ¬ modified_files.isEmpty = true then
    if webhook_ok then now else last_sync_time
  else
    last_sync_time

/-! ## The Redis cursor store (shared/state_manager.py) -/

/-- The attribute lookup `datetime.timedelta` on state_manager.py line 36.
The module imports `from datetime import datetime`, binding the *class*
`datetime`; the class has no `timedelta` attribute (that lives on the
`datetime` *module*), so the lookup raises `AttributeError`. -/
def datetime_class_timedelta (_minutes : Nat) : Except Unit Unit :=
  .error ()

/-- `StateManager.get_last_sync_time`: return the stored value when truthy;
otherwise compute the ten-minutes-ago default — whose `datetime.timedelta`
sub-expression raises, so the `except` clause returns `None`.  `stored` is the
Redis reply for the key; `default_time` is the string
`(utcnow - 10 minutes).isoformat() + 'Z'` that line 35 would produce if the
attribute lookup succeeded. -/
def get_last_sync_time (stored : Option String) (default_time : String) :
    Option String :=
  let truthy : Bool := match stored with
    | some t => !t.isEmpty
    | none => false
  if truthy then stored
  else
    match datetime_class_timedelta 10 with
    | .ok _ => some default_time
    | .error _ => none


/-! ## Invariants of the sanitize pipeline -/

theorem isPrefixOf_length_le {p l : List Char} (h : p.isPrefixOf l = true) :
    p.length ≤ l.length := by
  induction p generalizing l with
  | nil => simp
  | cons a as ih =>
    cases l with
    | nil => simp [List.isPrefixOf] at h
    | cons b bs =>
      simp only [List.isPrefixOf, Bool.and_eq_true] at h
      have := ih h.2
      simp only [List.length_cons]
      omega

theorem strReplaceGo_skip (pat repl : List Char) :
    ∀ (l : List Char) (k : Nat),
      strReplaceGo pat repl l k = strReplaceGo pat repl (l.drop k) 0 := by
  intro l
  induction l with
  | nil => intro k; cases k <;> rfl
  | cons c rest ih =>
    intro k
    cases k with
    | zero => rfl
    | succ k =>
      show strReplaceGo pat repl rest k = _
      rw [ih k]
      rfl

theorem strReplace_nil (pat repl : List Char) : strReplace pat repl [] = [] := rfl

/-- The single unfolding equation for `strReplace`. -/
theorem strReplace_cons (pat repl : List Char) (c : Char) (rest : List Char) :
    strReplace pat repl (c :: rest) =
      if pat ≠ [] ∧ pat.isPrefixOf (c :: rest) then
        repl ++ strReplace pat repl (rest.drop (pat.length - 1))
      else
        c :: strReplace pat repl rest := by
  show strReplaceGo pat repl (c :: rest) 0 = _
  simp only [strReplaceGo]
  rw [strReplaceGo_skip pat repl rest (pat.length - 1)]
  rfl

theorem strReplace_length_le (pat repl : List Char) (hlen : repl.length ≤ pat.length) :
    ∀ l : List Char, (strReplace pat repl l).length ≤ l.length := by
  have main : ∀ (n : Nat) (l : List Char), l.length ≤ n →
      (strReplace pat repl l).length ≤ l.length := by
    intro n
    induction n with
    | zero =>
      intro l hl
      have : l = [] := by cases l <;> simp_all
      subst this
      simp [strReplace_nil]
    | succ n ih =>
      intro l hl
      cases l with
      | nil => simp [strReplace_nil]
      | cons c rest =>
        rw [strReplace_cons]
        by_cases h : pat ≠ [] ∧ pat.isPrefixOf (c :: rest)
        · rw [if_pos h]
          have hp1 : 1 ≤ pat.length := by
            cases hpat : pat with
            | nil => exact absurd hpat h.1
            | cons _ _ => simp
          have hple : pat.length ≤ rest.length + 1 := by
            have := isPrefixOf_length_le h.2
            simpa using this
          have hdrop : (rest.drop (pat.length - 1)).length ≤ rest.length := by
            simp [List.length_drop]
          simp only [List.length_cons] at hl
          have hrec := ih (rest.drop (pat.length - 1)) (by omega)
          simp only [List.length_append, List.length_cons]
          have hdl : (rest.drop (pat.length - 1)).length = rest.length - (pat.length - 1) := by
            simp [List.length_drop]
          omega
        · rw [if_neg h]
          simp only [List.length_cons] at hl
          have hrec := ih rest (by omega)
          simp only [List.length_cons]
          omega
  intro l
  exact main l.length l (le_refl _)

theorem strReplace_dd_length_lt (l : List Char)
    (h : containsSub ['_', '_'] l = true) :
    (strReplace ['_', '_'] ['_'] l).length < l.length := by
  induction l with
  | nil => simp [containsSub, List.isEmpty] at h
  | cons c rest ih =>
    simp only [containsSub, Bool.or_eq_true] at h
    rw [strReplace_cons]
    by_cases hm : (['_', '_'] : List Char) ≠ [] ∧ List.isPrefixOf ['_', '_'] (c :: rest)
    · rw [if_pos hm]
      have hidx : (['_', '_'] : List Char).length - 1 = 1 := rfl
      rw [hidx]
      have hple : (2 : Nat) ≤ rest.length + 1 := by
        have := isPrefixOf_length_le hm.2
        simpa using this
      have hdrop := strReplace_length_le ['_', '_'] ['_'] (by simp) (rest.drop 1)
      simp only [List.length_drop] at hdrop
      simp only [List.length_append, List.length_cons, List.length_nil]
      omega
    · rw [if_neg hm]
      have hrest : containsSub ['_', '_'] rest = true := by
        rcases h with h | h
        · exact absurd ⟨by simp, h⟩ hm
        · exact h
      have := ih hrest
      simp only [List.length_cons]
      omega



theorem isPrefixOf_iff_exists {p l : List Char} :
    p.isPrefixOf l = true ↔ ∃ t, l = p ++ t := by
  induction p generalizing l with
  | nil => simp [List.isPrefixOf]
  | cons a as ih =>
    cases l with
    | nil => simp [List.isPrefixOf]
    | cons b bs =>
      simp only [List.isPrefixOf, Bool.and_eq_true, beq_iff_eq, ih,
        List.cons_append, List.cons.injEq]
      constructor
      · rintro ⟨rfl, t, rfl⟩
        exact ⟨t, rfl, rfl⟩
      · rintro ⟨t, rfl, rfl⟩
        exact ⟨rfl, t, rfl⟩

theorem isPrefixOf_append_self (p t : List Char) :
    p.isPrefixOf (p ++ t) = true :=
  isPrefixOf_iff_exists.mpr ⟨t, rfl⟩

theorem containsSub_append_right {pat l₂ : List Char}
    (h : containsSub pat l₂ = true) (l₁ : List Char) :
    containsSub pat (l₁ ++ l₂) = true := by
  induction l₁ with
  | nil => simpa using h
  | cons c rest ih =>
    simp only [List.cons_append, containsSub, Bool.or_eq_true]
    exact Or.inr ih

theorem containsSub_iff_parts {pat l : List Char} :
    containsSub pat l = true ↔ ∃ l₁ l₂, l = l₁ ++ (pat ++ l₂) := by
  constructor
  · intro h
    induction l with
    | nil =>
      simp only [containsSub, List.isEmpty_iff] at h
      exact ⟨[], [], by simp [h]⟩
    | cons c rest ih =>
      simp only [containsSub, Bool.or_eq_true] at h
      rcases h with h | h
      · obtain ⟨t, ht⟩ := isPrefixOf_iff_exists.mp h
        exact ⟨[], t, by simp [ht]⟩
      · obtain ⟨l₁, l₂, hl⟩ := ih h
        exact ⟨c :: l₁, l₂, by simp [hl]⟩
  · rintro ⟨l₁, l₂, rfl⟩
    apply containsSub_append_right _ l₁
    cases pat with
    | nil =>
      cases l₂ <;> simp [containsSub, List.isPrefixOf]
    | cons p ps =>
      simp only [List.cons_append, containsSub, Bool.or_eq_true]
      exact Or.inl (isPrefixOf_append_self (p :: ps) l₂)

theorem containsSub_dd_reverse {l : List Char}
    (h : containsSub ['_', '_'] l.reverse = true) :
    containsSub ['_', '_'] l = true := by
  obtain ⟨l₁, l₂, hl⟩ := containsSub_iff_parts.mp h
  apply containsSub_iff_parts.mpr
  refine ⟨l₂.reverse, l₁.reverse, ?_⟩
  have := congrArg List.reverse hl
  simpa using this

/-- Replacing a single character is a pointwise map. -/
theorem strReplace_single_eq_map (b : Char) (l : List Char) :
    strReplace [b] ['_'] l = l.map (fun c => if c = b then '_' else c) := by
  induction l with
  | nil => simp [strReplace_nil]
  | cons c rest ih =>
    rw [strReplace_cons]
    by_cases hc : c = b
    · subst hc
      rw [if_pos ⟨by simp, by simp [List.isPrefixOf]⟩]
      simp [ih]
    · rw [if_neg]
      · simp [ih, hc]
      · rintro ⟨-, hpre⟩
        simp only [List.isPrefixOf, Bool.and_eq_true, beq_iff_eq] at hpre
        exact hc hpre.1.symm

theorem mem_strReplace {c : Char} {pat repl l : List Char}
    (h : c ∈ strReplace pat repl l) : c ∈ repl ∨ c ∈ l := by
  have main : ∀ (n : Nat) (l : List Char), l.length ≤ n →
      c ∈ strReplace pat repl l → c ∈ repl ∨ c ∈ l := by
    intro n
    induction n with
    | zero =>
      intro l hl hc
      have : l = [] := by cases l <;> simp_all
      subst this
      simp [strReplace_nil] at hc
    | succ n ih =>
      intro l hl hc
      cases l with
      | nil => simp [strReplace_nil] at hc
      | cons a rest =>
        rw [strReplace_cons] at hc
        by_cases hm : pat ≠ [] ∧ pat.isPrefixOf (a :: rest)
        · rw [if_pos hm] at hc
          rcases List.mem_append.mp hc with hc | hc
          · exact Or.inl hc
          · simp only [List.length_cons] at hl
            rcases ih (rest.drop (pat.length - 1)) (by simp [List.length_drop]; omega) hc with
              h' | h'
            · exact Or.inl h'
            · exact Or.inr (List.mem_cons_of_mem a (List.drop_subset _ _ h'))
        · rw [if_neg hm] at hc
          rcases List.mem_cons.mp hc with hc | hc
          · exact Or.inr (by simp [hc])
          · simp only [List.length_cons] at hl
            rcases ih rest (by omega) hc with h' | h'
            · exact Or.inl h'
            · exact Or.inr (List.mem_cons_of_mem a h')
  exact main l.length l (le_refl _) h

theorem applyReplacements_eq_fold (l : List Char) :
    applyReplacements l = foldReplacements badChars l := by
  unfold foldReplacements badChars
  simp only [List.foldl_cons, List.foldl_nil]
  unfold applyReplacements
  rfl

theorem mem_foldReplacements {c : Char} {bs l : List Char}
    (h : c ∈ foldReplacements bs l) : c = '_' ∨ c ∈ l := by
  induction bs generalizing l with
  | nil => exact Or.inr h
  | cons b rest ih =>
    rcases ih (l := strReplace [b] ['_'] l) h with h' | h'
    · exact Or.inl h'
    · rw [strReplace_single_eq_map] at h'
      obtain ⟨a, ha, hae⟩ := List.mem_map.mp h'
      by_cases hab : a = b
      · simp [hab] at hae
        exact Or.inl hae.symm
      · simp [hab] at hae
        exact Or.inr (hae ▸ ha)

theorem not_mem_foldReplacements {bs l : List Char} {x : Char}
    (hbs : ∀ b ∈ bs, b ≠ '_') (hx : x ≠ '_') (hin : x ∈ bs ∨ x ∉ l) :
    x ∉ foldReplacements bs l := by
  induction bs generalizing l with
  | nil =>
    rcases hin with h | h
    · simp at h
    · exact h
  | cons b rest ih =>
    show x ∉ foldReplacements rest (strReplace [b] ['_'] l)
    have hnotmem : x = b → x ∉ strReplace [b] ['_'] l := by
      intro hxb hmem
      rw [strReplace_single_eq_map] at hmem
      obtain ⟨a, -, hae⟩ := List.mem_map.mp hmem
      by_cases hab : a = b
      · rw [if_pos hab] at hae
        exact hbs b (by simp) (hxb ▸ hae.symm)
      · rw [if_neg hab] at hae
        exact hab (hae.trans hxb)
    apply ih (fun b' hb' => hbs b' (List.mem_cons_of_mem b hb'))
    rcases hin with h | h
    · rcases List.mem_cons.mp h with hxb | h'
      · exact Or.inr (hnotmem hxb)
      · exact Or.inl h'
    · refine Or.inr fun hmem => ?_
      rw [strReplace_single_eq_map] at hmem
      obtain ⟨a, ha, hae⟩ := List.mem_map.mp hmem
      by_cases hab : a = b
      · rw [if_pos hab] at hae
        exact hx hae.symm
      · rw [if_neg hab] at hae
        exact h (hae ▸ ha)

theorem foldReplacements_of_disjoint {bs l : List Char}
    (h : ∀ c ∈ l, c ∉ bs) : foldReplacements bs l = l := by
  induction bs generalizing l with
  | nil => rfl
  | cons b rest ih =>
    show foldReplacements rest (strReplace [b] ['_'] l) = l
    have hb : strReplace [b] ['_'] l = l := by
      rw [strReplace_single_eq_map]
      have : ∀ c ∈ l, (fun c => if c = b then '_' else c) c = id c := by
        intro c hc
        have := h c hc
        simp only [id]
        rw [if_neg]
        intro hcb
        exact this (by simp [hcb])
      rw [List.map_congr_left this, List.map_id]
    rw [hb]
    exact ih fun c hc hcr => h c hc (List.mem_cons_of_mem b hcr)

theorem collapseAux_mem {x : Char} :
    ∀ (fuel : Nat) (l : List Char), x ∈ collapseAux fuel l → x = '_' ∨ x ∈ l := by
  intro fuel
  induction fuel with
  | zero => intro l h; exact Or.inr h
  | succ fuel ih =>
    intro l h
    simp only [collapseAux] at h
    by_cases hc : containsSub ['_', '_'] l = true
    · rw [if_pos hc] at h
      rcases ih _ h with h' | h'
      · exact Or.inl h'
      · rcases mem_strReplace h' with h'' | h''
        · exact Or.inl (by simpa using h'')
        · exact Or.inr h''
    · rw [if_neg hc] at h
      exact Or.inr h

theorem collapseUnderscores_mem {x : Char} {l : List Char}
    (h : x ∈ collapseUnderscores l) : x = '_' ∨ x ∈ l :=
  collapseAux_mem _ _ h

theorem collapseAux_no_dd :
    ∀ (fuel : Nat) (l : List Char), l.length ≤ fuel →
      containsSub ['_', '_'] (collapseAux fuel l) = false := by
  intro fuel
  induction fuel with
  | zero =>
    intro l hl
    have : l = [] := by cases l <;> simp_all
    subst this
    decide
  | succ fuel ih =>
    intro l hl
    simp only [collapseAux]
    by_cases hc : containsSub ['_', '_'] l = true
    · rw [if_pos hc]
      exact ih _ (by have := strReplace_dd_length_lt l hc; omega)
    · rw [if_neg hc]
      exact Bool.not_eq_true _ ▸ (by simpa using hc)

theorem collapseUnderscores_no_dd (l : List Char) :
    containsSub ['_', '_'] (collapseUnderscores l) = false :=
  collapseAux_no_dd l.length l (le_refl _)

theorem collapseUnderscores_eq_self {l : List Char}
    (h : containsSub ['_', '_'] l = false) : collapseUnderscores l = l := by
  cases l with
  | nil => rfl
  | cons c rest =>
    show collapseAux (rest.length + 1) (c :: rest) = c :: rest
    simp only [collapseAux]
    rw [if_neg (by simp [h])]

theorem mem_stripChar {c x : Char} {l : List Char}
    (h : c ∈ stripChar x l) : c ∈ l := by
  unfold stripChar at h
  rw [List.mem_reverse] at h
  have h1 := List.dropWhile_subset (p := (· == x)) (l := (l.dropWhile (· == x)).reverse) h
  rw [List.mem_reverse] at h1
  exact List.dropWhile_subset _ h1

theorem head?_dropWhile_ne {p : Char → Bool} {l : List Char} {c : Char}
    (h : (l.dropWhile p).head? = some c) : p c = false := by
  induction l with
  | nil => simp [List.dropWhile] at h
  | cons a rest ih =>
    rw [List.dropWhile_cons] at h
    by_cases hp : p a = true
    · rw [if_pos hp] at h
      exact ih h
    · rw [if_neg hp] at h
      simp only [List.head?_cons, Option.some.injEq] at h
      subst h
      exact Bool.not_eq_true _ ▸ (by simpa using hp)

theorem stripChar_head?_ne (x : Char) (l : List Char) :
    ∀ c, (stripChar x l).head? = some c → c ≠ x := by
  intro c hc
  unfold stripChar at hc
  rw [List.head?_reverse] at hc
  cases hD : ((l.dropWhile (· == x)).reverse.dropWhile (· == x)) with
  | nil => simp [hD] at hc
  | cons a rest =>
    have hne : (l.dropWhile (· == x)).reverse.dropWhile (· == x) ≠ [] := by
      simp [hD]
    have hlast : ((l.dropWhile (· == x)).reverse.dropWhile (· == x)).getLast? =
        (l.dropWhile (· == x)).reverse.getLast? := by
      conv_rhs =>
        rw [← List.takeWhile_append_dropWhile (p := (· == x))
          (l := (l.dropWhile (· == x)).reverse)]
      rw [List.getLast?_append_of_ne_nil _ hne]
    rw [hlast, List.getLast?_reverse] at hc
    have := head?_dropWhile_ne hc
    simpa using this

theorem stripChar_getLast?_ne (x : Char) (l : List Char) :
    ∀ c, (stripChar x l).getLast? = some c → c ≠ x := by
  intro c hc
  unfold stripChar at hc
  rw [List.getLast?_reverse] at hc
  have := head?_dropWhile_ne hc
  simpa using this

theorem dropWhile_eq_self_of_head {p : Char → Bool} {l : List Char}
    (h : ∀ c, l.head? = some c → p c = false) : l.dropWhile p = l := by
  cases l with
  | nil => rfl
  | cons a rest =>
    rw [List.dropWhile_cons, if_neg]
    simp [h a rfl]

theorem stripChar_eq_self {x : Char} {l : List Char}
    (h1 : ∀ c, l.head? = some c → c ≠ x) (h2 : ∀ c, l.getLast? = some c → c ≠ x) :
    stripChar x l = l := by
  unfold stripChar
  have e1 : l.dropWhile (· == x) = l :=
    dropWhile_eq_self_of_head (fun c hc => by simpa using h1 c hc)
  rw [e1]
  have e2 : l.reverse.dropWhile (· == x) = l.reverse :=
    dropWhile_eq_self_of_head (fun c hc => by
      rw [List.head?_reverse] at hc
      simpa using h2 c hc)
  rw [e2, List.reverse_reverse]

theorem containsSub_dd_stripChar {x : Char} {l : List Char}
    (h : containsSub ['_', '_'] l = false) :
    containsSub ['_', '_'] (stripChar x l) = false := by
  by_contra hc
  rw [Bool.not_eq_false] at hc
  unfold stripChar at hc
  have h1 := containsSub_dd_reverse hc
  have h2 : containsSub ['_', '_'] (l.dropWhile (· == x)).reverse = true := by
    obtain ⟨l₁, l₂, hl⟩ := containsSub_iff_parts.mp h1
    apply containsSub_iff_parts.mpr
    refine ⟨List.takeWhile (· == x) (l.dropWhile (· == x)).reverse ++ l₁, l₂, ?_⟩
    conv_lhs =>
      rw [← List.takeWhile_append_dropWhile (p := (· == x))
        (l := (l.dropWhile (· == x)).reverse)]
    rw [hl, List.append_assoc]
  have h3 := containsSub_dd_reverse (by simpa using h2)
  obtain ⟨l₁, l₂, hl⟩ := containsSub_iff_parts.mp h3
  have h4 : containsSub ['_', '_'] l = true := by
    apply containsSub_iff_parts.mpr
    refine ⟨List.takeWhile (· == x) l ++ l₁, l₂, ?_⟩
    conv_lhs => rw [← List.takeWhile_append_dropWhile (p := (· == x)) (l := l)]
    rw [hl, List.append_assoc]
  rw [h4] at h
  exact Bool.true_eq_false ▸ h

theorem flatMap_nfkdChar_of_ascii {l : List Char}
    (h : ∀ c ∈ l, c.toNat ≤ 127) : l.flatMap nfkdChar = l := by
  induction l with
  | nil => rfl
  | cons c rest ih =>
    have hc : nfkdChar c = [c] := by
      unfold nfkdChar
      rw [if_pos (h c (by simp))]
    rw [List.flatMap_cons, hc, ih (fun a ha => h a (List.mem_cons_of_mem c ha))]
    rfl

theorem sanitize_ascii_of_ascii {s : String}
    (h : ∀ c ∈ s.data, c.toNat ≤ 127) : sanitize_ascii s = s := by
  unfold sanitize_ascii
  rw [flatMap_nfkdChar_of_ascii h, List.filter_eq_self.mpr (fun a ha => by
    simpa using h a ha)]

/-- Bundle of structural facts about every `sanitize_filename` result: its
characters are ASCII, none of the replaced characters survives, it has no
double underscore, it is non-empty, and it neither starts nor ends with an
underscore. -/
theorem mk_data (l : List Char) : (⟨l⟩ : String).data = l := rfl

theorem sanitize_filename_def (s : String) :
    sanitize_filename s =
      if (stripChar '_'
          (collapseUnderscores (applyReplacements (sanitize_ascii s).data))).isEmpty
      then "unnamed_file"
      else ⟨stripChar '_'
          (collapseUnderscores (applyReplacements (sanitize_ascii s).data))⟩ := rfl

theorem sanitize_props (s : String) :
    (∀ c ∈ (sanitize_filename s).data, c.toNat ≤ 127) ∧
    (∀ c ∈ (sanitize_filename s).data, c ∉ badChars) ∧
    containsSub ['_', '_'] (sanitize_filename s).data = false ∧
    (sanitize_filename s).data ≠ [] ∧
    (∀ c, (sanitize_filename s).data.head? = some c → c ≠ '_') ∧
    (∀ c, (sanitize_filename s).data.getLast? = some c → c ≠ '_') := by
  have hbs : ∀ b ∈ badChars, b ≠ '_' := by decide
  rw [sanitize_filename_def]
  by_cases he : (stripChar '_'
      (collapseUnderscores (applyReplacements (sanitize_ascii s).data))).isEmpty = true
  · rw [if_pos he]
    refine ⟨by decide, by decide, by decide, by decide, ?_, ?_⟩
    · intro c hc
      have h : (some 'u' : Option Char) = some c := hc
      have h2 := Option.some.inj h
      subst h2
      decide
    · intro c hc
      have h : (some 'e' : Option Char) = some c := hc
      have h2 := Option.some.inj h
      subst h2
      decide
  · rw [if_neg he]
    rw [mk_data]
    refine ⟨?_, ?_, ?_, ?_, ?_, ?_⟩
    · intro c hc
      have h1 := mem_stripChar hc
      rcases collapseUnderscores_mem h1 with h2 | h2
      · subst h2; decide
      · rw [applyReplacements_eq_fold] at h2
        rcases mem_foldReplacements h2 with h3 | h3
        · subst h3; decide
        · exact of_decide_eq_true (List.mem_filter.mp h3).2
    · intro c hc hbad
      have h1 := mem_stripChar hc
      rcases collapseUnderscores_mem h1 with h2 | h2
      · exact hbs c hbad h2
      · rw [applyReplacements_eq_fold] at h2
        exact not_mem_foldReplacements hbs (hbs c hbad) (Or.inl hbad) h2
    · exact containsSub_dd_stripChar (collapseUnderscores_no_dd _)
    · exact List.isEmpty_eq_false.mp (Bool.not_eq_true _ ▸ he)
    · exact stripChar_head?_ne '_' _
    · exact stripChar_getLast?_ne '_' _

/-- C2 counterexample: `sanitize_filename` leaves `'-'` (and many other
characters, e.g. `% ^ ~`) untouched, so on input `"a-b"` the result contains
the character `'-'`, which is outside the class `[A-Za-z0-9_]` plus dot that
the claim asserts. -/
theorem sanitize_filename_class_counterexample :
    sanitize_filename "a-b" = "a-b" ∧
    '-' ∈ (sanitize_filename "a-b").data ∧
    specSafeChar '-' = false := by decide

/-- C2 (amended): every `sanitize_filename` result contains none of the
nineteen characters the function replaces (space and `/\?#[]@!$&'()*+,;=`),
is non-empty, and contains no two consecutive underscores.  (Characters
outside `[A-Za-z0-9_]` plus dot that are not in the replaced set, such as
`'-'`, may remain.) -/
theorem sanitize_filename_amended (s : String) :
    ((sanitize_filename s).data.all (fun c => !(badChars.contains c))) = true ∧
    sanitize_filename s ≠ "" ∧
    containsSub ['_', '_'] (sanitize_filename s).data = false := by
  obtain ⟨-, hBad, hDD, hNE, -, -⟩ := sanitize_props s
  refine ⟨?_, ?_, hDD⟩
  · exact List.all_eq_true.mpr fun c hc => by simp [hBad c hc]
  · intro h
    exact hNE (by rw [h])

/-- C10: `sanitize_filename` is idempotent — its output is ASCII, free of the
replaced characters, free of double underscores, non-empty and has no
underscore at either end, so a second pass changes nothing. -/
theorem sanitize_filename_idempotent (s : String) :
    sanitize_filename (sanitize_filename s) = sanitize_filename s := by
  obtain ⟨hA, hB, hC, hNE, hH, hL⟩ := sanitize_props s
  have hAsc : sanitize_ascii (sanitize_filename s) = sanitize_filename s :=
    sanitize_ascii_of_ascii hA
  have hRep : applyReplacements (sanitize_filename s).data =
      (sanitize_filename s).data := by
    rw [applyReplacements_eq_fold]
    exact foldReplacements_of_disjoint hB
  have hCol : collapseUnderscores (sanitize_filename s).data =
      (sanitize_filename s).data := collapseUnderscores_eq_self hC
  have hStr : stripChar '_' (sanitize_filename s).data =
      (sanitize_filename s).data := stripChar_eq_self hH hL
  rw [sanitize_filename_def (sanitize_filename s), hAsc, hRep, hCol, hStr,
    if_neg (by simp [List.isEmpty_eq_false.mpr hNE])]

/-! ## Timestamp rendering lemmas (towards C7) -/

theorem isDigit_digitChar {d : Nat} (h : d ≤ 9) : (digitChar d).isDigit = true := by
  interval_cases d <;> decide

theorem digitChar_inj {a b : Nat} (ha : a ≤ 9) (hb : b ≤ 9)
    (h : digitChar a = digitChar b) : a = b := by
  interval_cases a <;> interval_cases b <;>
    first
      | rfl
      | exact absurd h (by decide)

theorem digit_ne_slash {c : Char} (h : c.isDigit = true) : c ≠ '/' := by
  intro he
  rw [he] at h
  exact absurd h (by decide)

theorem digit_ne_f {c : Char} (h : c.isDigit = true) : c ≠ 'f' := by
  intro he
  rw [he] at h
  exact absurd h (by decide)

theorem pad2_digits {n : Nat} (h : n ≤ 99) : ∀ c ∈ pad2 n, c.isDigit = true := by
  intro c hc
  rcases List.mem_pair.mp hc with rfl | rfl
  · exact isDigit_digitChar (by omega)
  · exact isDigit_digitChar (by omega)

theorem pad4_digits {n : Nat} (h : n ≤ 9999) : ∀ c ∈ pad4 n, c.isDigit = true := by
  intro c hc
  simp only [pad4, List.mem_cons, List.not_mem_nil, or_false] at hc
  rcases hc with rfl | rfl | rfl | rfl <;> exact isDigit_digitChar (by omega)

theorem pad2_length (n : Nat) : (pad2 n).length = 2 := rfl

theorem pad4_length (n : Nat) : (pad4 n).length = 4 := rfl

theorem pad2_inj {a b : Nat} (ha : a ≤ 99) (hb : b ≤ 99) (h : pad2 a = pad2 b) :
    a = b := by
  simp only [pad2, List.cons.injEq, and_true] at h
  have h1 := digitChar_inj (by omega) (by omega) h.1
  have h2 := digitChar_inj (by omega) (by omega) h.2
  omega

theorem pad4_inj {a b : Nat} (ha : a ≤ 9999) (hb : b ≤ 9999) (h : pad4 a = pad4 b) :
    a = b := by
  simp only [pad4, List.cons.injEq, and_true] at h
  have h1 := digitChar_inj (by omega) (by omega) h.1
  have h2 := digitChar_inj (by omega) (by omega) h.2.1
  have h3 := digitChar_inj (by omega) (by omega) h.2.2.1
  have h4 := digitChar_inj (by omega) (by omega) h.2.2.2
  omega

theorem strftimePath_length (t : PyDateTime) : (strftimePath t).length = 17 := by
  simp [strftimePath, pad4, pad2]

theorem strftimePath_inj {t1 t2 : PyDateTime} (h1 : t1.Valid) (h2 : t2.Valid)
    (h : strftimePath t1 = strftimePath t2) : t1.truncSec = t2.truncSec := by
  obtain ⟨hy1, hy1b, hmo1, hmo1b, hd1, hd1b, hh1, hmi1, hs1, -⟩ := h1
  obtain ⟨hy2, hy2b, hmo2, hmo2b, hd2, hd2b, hh2, hmi2, hs2, -⟩ := h2
  unfold strftimePath at h
  obtain ⟨hy, h⟩ := List.append_inj h rfl
  obtain ⟨-, h⟩ := List.cons.inj h
  obtain ⟨hmo, h⟩ := List.append_inj h rfl
  obtain ⟨-, h⟩ := List.cons.inj h
  obtain ⟨hd, h⟩ := List.append_inj h rfl
  obtain ⟨-, h⟩ := List.cons.inj h
  obtain ⟨hhmi, hs⟩ := List.append_inj h rfl
  obtain ⟨hh, hmi⟩ := List.append_inj hhmi rfl
  have ey := pad4_inj (by omega) (by omega) hy
  have emo := pad2_inj (by omega) (by omega) hmo
  have ed := pad2_inj (by omega) (by omega) hd
  have eh := pad2_inj (by omega) (by omega) hh
  have emi := pad2_inj (by omega) (by omega) hmi
  have es := pad2_inj (by omega) (by omega) hs
  simp [PyDateTime.truncSec, ey, emo, ed, eh, emi, es]

/-- C7 counterexample: Python processing times carry microseconds, but the key
format `%Y/%m/%d/%H%M%S` is second-granular, so two distinct processing times
within the same second yield the same storage key (the second upload
overwrites the first). -/
theorem s3FileKey_counterexample :
    (⟨2025, 10, 12, 9, 30, 15, 0⟩ : PyDateTime) ≠ ⟨2025, 10, 12, 9, 30, 15, 500000⟩ ∧
    s3FileKey ⟨2025, 10, 12, 9, 30, 15, 0⟩ "report.pdf".data =
      s3FileKey ⟨2025, 10, 12, 9, 30, 15, 500000⟩ "report.pdf".data := by
  constructor
  · decide
  · rfl

/-- C7 (amended): for a fixed document name, two valid processing times that
differ at second granularity (i.e. in any of year, month, day, hour, minute
or second) produce different storage keys. -/
theorem s3FileKey_inj (t1 t2 : PyDateTime) (safe : List Char)
    (h1 : t1.Valid) (h2 : t2.Valid) (hne : t1.truncSec ≠ t2.truncSec) :
    s3FileKey t1 safe ≠ s3FileKey t2 safe := by
  intro h
  apply hne
  unfold s3FileKey at h
  rw [List.append_assoc, List.append_assoc] at h
  have h' := List.append_cancel_left h
  obtain ⟨hts, -⟩ := List.append_inj h'
    (by rw [strftimePath_length, strftimePath_length])
  exact strftimePath_inj h1 h2 hts

/-- Witness for `s3FileKey_inj` at two concrete times one second apart. -/
theorem s3FileKey_inj_witness :
    (⟨2025, 10, 12, 9, 30, 15, 0⟩ : PyDateTime).Valid ∧
    (⟨2025, 10, 12, 9, 30, 16, 0⟩ : PyDateTime).Valid ∧
    (⟨2025, 10, 12, 9, 30, 15, 0⟩ : PyDateTime).truncSec ≠
      (⟨2025, 10, 12, 9, 30, 16, 0⟩ : PyDateTime).truncSec ∧
    s3FileKey ⟨2025, 10, 12, 9, 30, 15, 0⟩ "report.pdf".data ≠
      s3FileKey ⟨2025, 10, 12, 9, 30, 16, 0⟩ "report.pdf".data :=
  ⟨by decide, by decide, by decide,
    s3FileKey_inj _ _ _ (by decide) (by decide) (by decide)⟩

/-! ## The metadata-key swap (towards C9) -/

theorem strReplace_cons_ne_head {pat repl : List Char} {p0 c : Char}
    {rest : List Char} (hpat : pat.head? = some p0) (hc : c ≠ p0) :
    strReplace pat repl (c :: rest) = c :: strReplace pat repl rest := by
  rw [strReplace_cons, if_neg]
  rintro ⟨-, hpre⟩
  cases pat with
  | nil => simp at hpat
  | cons q qs =>
    simp only [List.head?_cons, Option.some.injEq] at hpat
    subst hpat
    simp only [List.isPrefixOf, Bool.and_eq_true, beq_iff_eq] at hpre
    exact hc hpre.1.symm

theorem strReplace_append_no_head {pat repl : List Char} {p0 : Char}
    (hpat : pat.head? = some p0) {l1 : List Char} (h : ∀ c ∈ l1, c ≠ p0)
    (l2 : List Char) :
    strReplace pat repl (l1 ++ l2) = l1 ++ strReplace pat repl l2 := by
  induction l1 with
  | nil => simp
  | cons c rest ih =>
    rw [List.cons_append, strReplace_cons_ne_head hpat (h c (by simp)),
      ih (fun a ha => h a (List.mem_cons_of_mem c ha))]
    rfl

theorem strReplace_eq_self_no_head {pat repl : List Char} {p0 : Char}
    (hpat : pat.head? = some p0) {l : List Char} (h : ∀ c ∈ l, c ≠ p0) :
    strReplace pat repl l = l := by
  have := @strReplace_append_no_head pat repl p0 hpat l h []
  simpa [strReplace_nil] using this

theorem strReplace_match_head {pat repl : List Char} (hne : pat ≠ [])
    (l2 : List Char) :
    strReplace pat repl (pat ++ l2) = repl ++ strReplace pat repl l2 := by
  cases pat with
  | nil => exact absurd rfl hne
  | cons q qs =>
    rw [List.cons_append, strReplace_cons, if_pos]
    · rw [show (q :: qs).length - 1 = qs.length by simp, List.drop_left]
    · refine ⟨by simp, ?_⟩
      rw [← List.cons_append]
      exact isPrefixOf_append_self _ _

theorem strReplace_files_slash_digit {repl : List Char} {d : Char}
    {rest : List Char} (hd : d.isDigit = true) :
    strReplace "/files/".data repl ('/' :: d :: rest) =
      '/' :: strReplace "/files/".data repl (d :: rest) := by
  rw [strReplace_cons, if_neg]
  rintro ⟨-, hpre⟩
  have hf : ("/files/".data : List Char) = '/' :: 'f' :: "iles/".data := rfl
  rw [hf] at hpre
  simp only [List.isPrefixOf, Bool.and_eq_true, beq_iff_eq] at hpre
  exact digit_ne_f hd hpre.2.1.symm

/-- The pattern `/files/` does not occur in `{timestamp}_{safe_filename}`:
every slash there is a date separator followed by a digit, and the sanitized
filename contains no slash. -/
theorem strReplace_files_strftime (t : PyDateTime) (ht : t.Valid)
    {safe : List Char} (hsafe : ∀ c ∈ safe, c ≠ '/') (repl : List Char) :
    strReplace "/files/".data repl (strftimePath t ++ '_' :: safe) =
      strftimePath t ++ '_' :: safe := by
  obtain ⟨hy, hyb, hmo, hmob, hd, hdb, hh, hmi, hs, -⟩ := ht
  have hfh : ("/files/".data : List Char).head? = some '/' := rfl
  have hmo1 : (digitChar (t.month / 10)).isDigit = true := isDigit_digitChar (by omega)
  have hdd1 : (digitChar (t.day / 10)).isDigit = true := isDigit_digitChar (by omega)
  have hhh1 : (digitChar (t.hour / 10)).isDigit = true := isDigit_digitChar (by omega)
  unfold strftimePath pad4 pad2
  simp only [List.append_assoc, List.cons_append, List.nil_append]
  rw [strReplace_cons_ne_head hfh (digit_ne_slash (isDigit_digitChar (by omega))),
    strReplace_cons_ne_head hfh (digit_ne_slash (isDigit_digitChar (by omega))),
    strReplace_cons_ne_head hfh (digit_ne_slash (isDigit_digitChar (by omega))),
    strReplace_cons_ne_head hfh (digit_ne_slash (isDigit_digitChar (by omega))),
    strReplace_files_slash_digit hmo1,
    strReplace_cons_ne_head hfh (digit_ne_slash hmo1),
    strReplace_cons_ne_head hfh (digit_ne_slash (isDigit_digitChar (by omega))),
    strReplace_files_slash_digit hdd1,
    strReplace_cons_ne_head hfh (digit_ne_slash hdd1),
    strReplace_cons_ne_head hfh (digit_ne_slash (isDigit_digitChar (by omega))),
    strReplace_files_slash_digit hhh1,
    strReplace_cons_ne_head hfh (digit_ne_slash hhh1),
    strReplace_cons_ne_head hfh (digit_ne_slash (isDigit_digitChar (by omega))),
    strReplace_cons_ne_head hfh (digit_ne_slash (isDigit_digitChar (by omega))),
    strReplace_cons_ne_head hfh (digit_ne_slash (isDigit_digitChar (by omega))),
    strReplace_cons_ne_head hfh (digit_ne_slash (isDigit_digitChar (by omega))),
    strReplace_cons_ne_head hfh (digit_ne_slash (isDigit_digitChar (by omega))),
    strReplace_cons_ne_head hfh (show '_' ≠ '/' by decide),
    strReplace_eq_self_no_head hfh hsafe]

/-- The helper fact behind C9: on every key `sync_file_to_s3` builds, the
`replace('/files/', '/metadata/')` swaps exactly the one `/files/` segment. -/
theorem metadataKeyOf_s3FileKey (t : PyDateTime) (ht : t.Valid)
    {safe : List Char} (hsafe : ∀ c ∈ safe, c ≠ '/') :
    metadataKeyOf (s3FileKey t safe) =
      "gdrive-sync/metadata/".data ++ (strftimePath t ++ '_' :: safe) ++
        ".json".data := by
  unfold metadataKeyOf s3FileKey
  rw [show ("gdrive-sync/files/".data : List Char) =
        "gdrive-sync".data ++ "/files/".data from rfl,
    show ("gdrive-sync/metadata/".data : List Char) =
        "gdrive-sync".data ++ "/metadata/".data from rfl]
  simp only [List.append_assoc]
  rw [@strReplace_append_no_head "/files/".data "/metadata/".data '/' rfl
      "gdrive-sync".data
      (by decide : ∀ c ∈ ("gdrive-sync".data : List Char), c ≠ '/') _,
    strReplace_match_head (by decide : ("/files/".data : List Char) ≠ []),
    strReplace_files_strftime t ht hsafe]
  simp [List.append_assoc]

/-! ## Classifying the worker's S3 writes -/

theorem isPrefixOf_append_cancel (p a b : List Char) :
    (p ++ a).isPrefixOf (p ++ b) = a.isPrefixOf b := by
  induction p with
  | nil => rfl
  | cons c rest ih => simp [List.isPrefixOf, ih]

theorem isPrefixOf_cons_ne {a b : Char} (as bs : List Char) (h : a ≠ b) :
    (a :: as).isPrefixOf (b :: bs) = false := by
  simp [List.isPrefixOf, h]

theorem isPrefixOf_ne_head {p l : List Char} {a b : Char} {ps ls : List Char}
    (hp : p = a :: ps) (hl : l = b :: ls) (h : a ≠ b) :
    p.isPrefixOf l = false := by
  subst hp
  subst hl
  exact isPrefixOf_cons_ne _ _ h

theorem filesPrefix_fileKey (t : PyDateTime) (safe : List Char) :
    ("gdrive-sync/files/".data).isPrefixOf (s3FileKey t safe) = true := by
  unfold s3FileKey
  rw [List.append_assoc]
  exact isPrefixOf_append_self _ _

theorem filesPrefix_metadataKey (t : PyDateTime) (ht : t.Valid)
    {safe : List Char} (hsafe : ∀ c ∈ safe, c ≠ '/') :
    ("gdrive-sync/files/".data).isPrefixOf
      (metadataKeyOf (s3FileKey t safe)) = false := by
  rw [metadataKeyOf_s3FileKey t ht hsafe]
  rw [show ("gdrive-sync/files/".data : List Char) =
        "gdrive-sync/".data ++ "files/".data from rfl,
    show ("gdrive-sync/metadata/".data : List Char) =
        "gdrive-sync/".data ++ "metadata/".data from rfl,
    List.append_assoc, List.append_assoc, isPrefixOf_append_cancel]
  exact isPrefixOf_ne_head rfl rfl (by decide)

theorem filesPrefix_marker (t : PyDateTime) :
    ("gdrive-sync/files/".data).isPrefixOf
      ((create_webhook_event_file t).key) = false := by
  show ("gdrive-sync/files/".data).isPrefixOf
    (("gdrive-sync/webhook-events/".data ++ strftimePath t) ++
      "_no_files.txt".data) = false
  rw [show ("gdrive-sync/files/".data : List Char) =
        "gdrive-sync/".data ++ "files/".data from rfl,
    show ("gdrive-sync/webhook-events/".data : List Char) =
        "gdrive-sync/".data ++ "webhook-events/".data from rfl,
    List.append_assoc, List.append_assoc, isPrefixOf_append_cancel]
  exact isPrefixOf_ne_head rfl rfl (by decide)

theorem webhookPrefix_marker (t : PyDateTime) :
    ("gdrive-sync/webhook-events/".data).isPrefixOf
      ((create_webhook_event_file t).key) = true := by
  show ("gdrive-sync/webhook-events/".data).isPrefixOf
    (("gdrive-sync/webhook-events/".data ++ strftimePath t) ++
      "_no_files.txt".data) = true
  rw [List.append_assoc]
  exact isPrefixOf_append_self _ _

/-- The sanitized filename contains no slash (it is one of the replaced
characters). -/
theorem sanitize_filename_no_slash (s : String) :
    ∀ c ∈ (sanitize_filename s).data, c ≠ '/' := by
  intro c hc heq
  apply (sanitize_props s).2.1 c hc
  rw [heq]
  decide

/-- C9: for every processed file, the file object's key has the shape
`gdrive-sync/files/` ++ rest and the companion audit record is written at
exactly `gdrive-sync/metadata/` ++ rest ++ `.json` — the `/files/` segment
swapped for `/metadata/` and `.json` appended. -/
theorem create_metadata_file_swaps_segment (t : PyDateTime)
    (name mime_type : String) (ht : t.Valid) :
    s3FileKey t (sanitize_filename (add_appropriate_extension name mime_type)).data =
      "gdrive-sync/files/".data ++
        (strftimePath t ++ '_' ::
          (sanitize_filename (add_appropriate_extension name mime_type)).data) ∧
    (create_metadata_file
        (s3FileKey t
          (sanitize_filename (add_appropriate_extension name mime_type)).data)).key =
      "gdrive-sync/metadata/".data ++
        (strftimePath t ++ '_' ::
          (sanitize_filename (add_appropriate_extension name mime_type)).data) ++
        ".json".data := by
  constructor
  · unfold s3FileKey
    rw [List.append_assoc]
  · show metadataKeyOf _ = _
    exact metadataKeyOf_s3FileKey t ht
      (sanitize_filename_no_slash (add_appropriate_extension name mime_type))

/-- Witness for `create_metadata_file_swaps_segment` on a PDF named
`"a b.pdf"` at a concrete time. -/
theorem create_metadata_file_swaps_segment_witness :
    (⟨2025, 10, 12, 9, 30, 15, 0⟩ : PyDateTime).Valid ∧
    ((create_metadata_file
        (s3FileKey ⟨2025, 10, 12, 9, 30, 15, 0⟩
          (sanitize_filename (add_appropriate_extension "a b.pdf" "application/pdf")).data)).key =
      "gdrive-sync/metadata/".data ++
        (strftimePath ⟨2025, 10, 12, 9, 30, 15, 0⟩ ++ '_' ::
          (sanitize_filename (add_appropriate_extension "a b.pdf" "application/pdf")).data) ++
        ".json".data) :=
  ⟨by decide,
    (create_metadata_file_swaps_segment ⟨2025, 10, 12, 9, 30, 15, 0⟩
      "a b.pdf" "application/pdf" (by decide)).2⟩

/-! ## Worker message processing (C5, C8) -/

theorem upload_to_s3_key (k : List Char) (m : String) :
    (upload_to_s3 k m).key = k := rfl

theorem create_metadata_file_key (k : List Char) :
    (create_metadata_file k).key = metadataKeyOf k := rfl

theorem sync_file_counts (download : String → Option (List Nat))
    (t : PyDateTime) (ht : t.Valid) :
    ∀ files : List DriveFile,
      ((files.map (sync_file_to_s3 download t)).flatMap (fun r => r.2)).countP
          (fun p => ("gdrive-sync/files/".data).isPrefixOf p.key) =
        files.length - (files.filter (fun f => (download f.id).isNone)).length ∧
      (files.map (sync_file_to_s3 download t)).countP (fun r => r.1) =
        files.length - (files.filter (fun f => (download f.id).isNone)).length := by
  intro files
  induction files with
  | nil => exact ⟨rfl, rfl⟩
  | cons f rest ih =>
    have hbound := List.length_filter_le
      (fun f => (download f.id).isNone) rest
    obtain ⟨ih1, ih2⟩ := ih
    cases hdl : download f.id with
    | none =>
      have hs1 : (sync_file_to_s3 download t f).1 = false := by
        unfold sync_file_to_s3
        rw [hdl]
      have hs2 : (sync_file_to_s3 download t f).2 = [] := by
        unfold sync_file_to_s3
        rw [hdl]
      have hfilter : (f :: rest).filter (fun f => (download f.id).isNone) =
          f :: rest.filter (fun f => (download f.id).isNone) := by
        rw [List.filter_cons_of_pos]
        simp [hdl]
      constructor
      · simp only [List.map_cons, List.flatMap_cons]
        rw [hs2, hfilter]
        simp only [List.nil_append, List.length_cons]
        rw [ih1]
        omega
      · simp only [List.map_cons]
        have hv : List.countP (fun r => r.1)
            (sync_file_to_s3 download t f ::
              List.map (sync_file_to_s3 download t) rest) =
            List.countP (fun r => r.1)
              (List.map (sync_file_to_s3 download t) rest) :=
          List.countP_cons_of_neg _ _ (by
            intro hcontra
            have hcontra2 : (sync_file_to_s3 download t f).1 = true := hcontra
            rw [hs1] at hcontra2
            exact Bool.false_ne_true hcontra2)
        rw [hv, ih2, hfilter]
        simp only [List.length_cons]
        omega
    | some content =>
      have hs1 : (sync_file_to_s3 download t f).1 = true := by
        unfold sync_file_to_s3
        rw [hdl]
      have hs2 : (sync_file_to_s3 download t f).2 =
          [upload_to_s3
            (s3FileKey t
              (sanitize_filename (add_appropriate_extension f.name f.mimeType)).data)
            f.mimeType,
           create_metadata_file
            (s3FileKey t
              (sanitize_filename (add_appropriate_extension f.name f.mimeType)).data)] := by
        unfold sync_file_to_s3
        rw [hdl]
      have hfilter : (f :: rest).filter (fun f => (download f.id).isNone) =
          rest.filter (fun f => (download f.id).isNone) := by
        rw [List.filter_cons_of_neg]
        simp [hdl]
      have hfile := filesPrefix_fileKey t
        (sanitize_filename (add_appropriate_extension f.name f.mimeType)).data
      have hmeta := filesPrefix_metadataKey t ht
        (sanitize_filename_no_slash (add_appropriate_extension f.name f.mimeType))
      constructor
      · simp only [List.map_cons, List.flatMap_cons]
        rw [hs2, hfilter]
        simp only [List.countP_append, List.length_cons]
        rw [ih1]
        have hn : List.countP
            (fun p => ("gdrive-sync/files/".data).isPrefixOf p.key)
            [create_metadata_file
              (s3FileKey t
                (sanitize_filename (add_appropriate_extension f.name f.mimeType)).data)] = 0 :=
          List.countP_cons_of_neg _ _ (by
            intro hc
            have hc2 : ("gdrive-sync/files/".data).isPrefixOf
                (create_metadata_file
                  (s3FileKey t
                    (sanitize_filename
                      (add_appropriate_extension f.name f.mimeType)).data)).key =
                true := hc
            rw [create_metadata_file_key, hmeta] at hc2
            exact Bool.false_ne_true hc2)
        have hcount : List.countP
            (fun p => ("gdrive-sync/files/".data).isPrefixOf p.key)
            [upload_to_s3
              (s3FileKey t
                (sanitize_filename (add_appropriate_extension f.name f.mimeType)).data)
              f.mimeType,
             create_metadata_file
              (s3FileKey t
                (sanitize_filename (add_appropriate_extension f.name f.mimeType)).data)] =
            List.countP
              (fun p => ("gdrive-sync/files/".data).isPrefixOf p.key)
              [create_metadata_file
                (s3FileKey t
                  (sanitize_filename (add_appropriate_extension f.name f.mimeType)).data)] + 1 :=
          List.countP_cons_of_pos _ _ (by
            show ("gdrive-sync/files/".data).isPrefixOf
              (upload_to_s3
                (s3FileKey t
                  (sanitize_filename (add_appropriate_extension f.name f.mimeType)).data)
                f.mimeType).key = true
            rw [upload_to_s3_key]
            exact hfile)
        rw [hcount, hn]
        omega
      · simp only [List.map_cons]
        have hv : List.countP (fun r => r.1)
            (sync_file_to_s3 download t f ::
              List.map (sync_file_to_s3 download t) rest) =
            List.countP (fun r => r.1)
              (List.map (sync_file_to_s3 download t) rest) + 1 :=
          List.countP_cons_of_pos _ _ hs1
        rw [hv, ih2, hfilter]
        simp only [List.length_cons]
        omega

/-- C5: for a parsed message whose folder listing yields `n` files of which
`k` fail to download, the worker performs exactly `n - k` uploads under
`gdrive-sync/files/`, its success counter records `n - k` (hence `k` per-file
failures), and the message is positively acknowledged; for every delivery,
the only negative acknowledgement is the escaped-exception (unparseable body)
case, and it never requeues. -/
theorem process_message_partial_failure (download : String → Option (List Nat))
    (t : PyDateTime) (msg : WebhookMessage) (files : List DriveFile)
    (ht : t.Valid) :
    ((process_message download t (some msg) files).puts.countP
        (fun p => ("gdrive-sync/files/".data).isPrefixOf p.key) =
      files.length - (files.filter (fun f => (download f.id).isNone)).length) ∧
    ((process_message download t (some msg) files).success_count =
      files.length - (files.filter (fun f => (download f.id).isNone)).length) ∧
    (process_message download t (some msg) files).decision = .ack ∧
    (∀ (body : Option WebhookMessage) (files2 : List DriveFile),
      (process_message download t body files2).decision = .ack ∨
      ((process_message download t body files2).decision = .nack false ∧
        body = none)) := by
  have hdec : ∀ (body : Option WebhookMessage) (files2 : List DriveFile),
      (process_message download t body files2).decision = .ack ∨
      ((process_message download t body files2).decision = .nack false ∧
        body = none) := by
    intro body files2
    cases body with
    | none => exact Or.inr ⟨rfl, rfl⟩
    | some m2 =>
      left
      simp only [process_message]
      split <;> rfl
  have hc := sync_file_counts download t ht files
  cases files with
  | nil =>
    have hm : List.countP
        (fun p => ("gdrive-sync/files/".data).isPrefixOf p.key)
        [create_webhook_event_file t] = 0 := by
      have h := List.countP_cons_of_neg
        (fun p => ("gdrive-sync/files/".data).isPrefixOf p.key)
        ([] : List S3Put) (by
          intro hc2
          have hc3 : ("gdrive-sync/files/".data).isPrefixOf
              (create_webhook_event_file t).key = true := hc2
          rw [filesPrefix_marker] at hc3
          exact Bool.false_ne_true hc3)
      rw [h]
      rfl
    exact ⟨hm, rfl, rfl, hdec⟩
  | cons f rest =>
    obtain ⟨h1, h2⟩ := hc
    have hpd : process_message download t (some msg) (f :: rest) =
        ⟨.ack,
          ((f :: rest).map (sync_file_to_s3 download t)).flatMap (fun r => r.2),
          ((f :: rest).map (sync_file_to_s3 download t)).countP (fun r => r.1)⟩ := by
      simp only [process_message]
      rw [if_pos (by simp)]
    refine ⟨?_, ?_, ?_, hdec⟩
    · rw [hpd]
      exact h1
    · rw [hpd]
      exact h2
    · rw [hpd]

/-- Witness for `process_message_partial_failure`: three files of which the
second fails to download give two uploads, a success count of two, and a
positive acknowledgement. -/
theorem process_message_partial_failure_witness :
    (⟨2025, 10, 12, 9, 30, 15, 0⟩ : PyDateTime).Valid ∧
    ((process_message (fun i => if i = "doc2" then none else some [0])
        ⟨2025, 10, 12, 9, 30, 15, 0⟩
        (some ⟨some "evt-1", "webhook_received", some "update", "",
          "2025-10-12T09:30:15Z", "127.0.0.1"⟩)
        [⟨"doc1", "report one.pdf", "application/pdf",
          "2025-10-12T09:00:00Z", some 10⟩,
         ⟨"doc2", "notes.txt", "text/plain", "2025-10-12T09:05:00Z", some 5⟩,
         ⟨"doc3", "data.csv", "text/csv", "2025-10-12T09:10:00Z", some 7⟩]).puts.countP
        (fun p => ("gdrive-sync/files/".data).isPrefixOf p.key) = 2) ∧
    ((process_message (fun i => if i = "doc2" then none else some [0])
        ⟨2025, 10, 12, 9, 30, 15, 0⟩
        (some ⟨some "evt-1", "webhook_received", some "update", "",
          "2025-10-12T09:30:15Z", "127.0.0.1"⟩)
        [⟨"doc1", "report one.pdf", "application/pdf",
          "2025-10-12T09:00:00Z", some 10⟩,
         ⟨"doc2", "notes.txt", "text/plain", "2025-10-12T09:05:00Z", some 5⟩,
         ⟨"doc3", "data.csv", "text/csv", "2025-10-12T09:10:00Z", some 7⟩]).success_count = 2) ∧
    (process_message (fun i => if i = "doc2" then none else some [0])
        ⟨2025, 10, 12, 9, 30, 15, 0⟩
        (some ⟨some "evt-1", "webhook_received", some "update", "",
          "2025-10-12T09:30:15Z", "127.0.0.1"⟩)
        [⟨"doc1", "report one.pdf", "application/pdf",
          "2025-10-12T09:00:00Z", some 10⟩,
         ⟨"doc2", "notes.txt", "text/plain", "2025-10-12T09:05:00Z", some 5⟩,
         ⟨"doc3", "data.csv", "text/csv", "2025-10-12T09:10:00Z", some 7⟩]).decision =
      .ack :=
  ⟨by decide,
    (process_message_partial_failure (fun i => if i = "doc2" then none else some [0])
      ⟨2025, 10, 12, 9, 30, 15, 0⟩
      ⟨some "evt-1", "webhook_received", some "update", "",
        "2025-10-12T09:30:15Z", "127.0.0.1"⟩
      [⟨"doc1", "report one.pdf", "application/pdf",
        "2025-10-12T09:00:00Z", some 10⟩,
       ⟨"doc2", "notes.txt", "text/plain", "2025-10-12T09:05:00Z", some 5⟩,
       ⟨"doc3", "data.csv", "text/csv", "2025-10-12T09:10:00Z", some 7⟩]
      (by decide)).1,
    (process_message_partial_failure (fun i => if i = "doc2" then none else some [0])
      ⟨2025, 10, 12, 9, 30, 15, 0⟩
      ⟨some "evt-1", "webhook_received", some "update", "",
        "2025-10-12T09:30:15Z", "127.0.0.1"⟩
      [⟨"doc1", "report one.pdf", "application/pdf",
        "2025-10-12T09:00:00Z", some 10⟩,
       ⟨"doc2", "notes.txt", "text/plain", "2025-10-12T09:05:00Z", some 5⟩,
       ⟨"doc3", "data.csv", "text/csv", "2025-10-12T09:10:00Z", some 7⟩]
      (by decide)).2.1,
    (process_message_partial_failure (fun i => if i = "doc2" then none else some [0])
      ⟨2025, 10, 12, 9, 30, 15, 0⟩
      ⟨some "evt-1", "webhook_received", some "update", "",
        "2025-10-12T09:30:15Z", "127.0.0.1"⟩
      [⟨"doc1", "report one.pdf", "application/pdf",
        "2025-10-12T09:00:00Z", some 10⟩,
       ⟨"doc2", "notes.txt", "text/plain", "2025-10-12T09:05:00Z", some 5⟩,
       ⟨"doc3", "data.csv", "text/csv", "2025-10-12T09:10:00Z", some 7⟩]
      (by decide)).2.2.1⟩

/-- C8: an event over an empty folder produces exactly one plain-text marker
object under `gdrive-sync/webhook-events/`, zero objects under
`gdrive-sync/files/`, and a positive acknowledgement. -/
theorem process_message_empty_folder (download : String → Option (List Nat))
    (t : PyDateTime) (msg : WebhookMessage) :
    (process_message download t (some msg) []).puts.countP
        (fun p => ("gdrive-sync/webhook-events/".data).isPrefixOf p.key &&
          (p.contentType == "text/plain")) = 1 ∧
    (process_message download t (some msg) []).puts.countP
        (fun p => ("gdrive-sync/files/".data).isPrefixOf p.key) = 0 ∧
    (process_message download t (some msg) []).decision = .ack := by
  refine ⟨?_, ?_, rfl⟩
  · show List.countP _ [create_webhook_event_file t] = 1
    have h := List.countP_cons_of_pos
      (fun p => ("gdrive-sync/webhook-events/".data).isPrefixOf p.key &&
        (p.contentType == "text/plain"))
      ([] : List S3Put) (by
        show (("gdrive-sync/webhook-events/".data).isPrefixOf
            (create_webhook_event_file t).key &&
          ((create_webhook_event_file t).contentType == "text/plain")) = true
        have hct : (create_webhook_event_file t).contentType = "text/plain" := rfl
        rw [webhookPrefix_marker, hct]
        decide)
    rw [h]
    rfl
  · show List.countP _ [create_webhook_event_file t] = 0
    have h := List.countP_cons_of_neg
      (fun p => ("gdrive-sync/files/".data).isPrefixOf p.key)
      ([] : List S3Put) (by
        intro hc
        have hc2 : ("gdrive-sync/files/".data).isPrefixOf
            (create_webhook_event_file t).key = true := hc
        rw [filesPrefix_marker] at hc2
        exact Bool.false_ne_true hc2)
    rw [h]
    rfl

/-! ## Webhook endpoint theorems (C1, C6) -/

theorem validate_headers_iff (tok : String) (hs : Headers) :
    validate_headers tok hs = true ↔
      headerGet hs "X-Goog-Channel-Token" = some tok ∧
      (headerGet hs "X-Goog-Channel-Id").isSome = true ∧
      ∃ st, headerGet hs "X-Goog-Resource-State" = some st ∧
        valid_states.contains st = true := by
  unfold validate_headers
  cases hcid : headerGet hs "X-Goog-Channel-Id" <;>
    cases hst : headerGet hs "X-Goog-Resource-State" <;>
      by_cases h1 : headerGet hs "X-Goog-Channel-Token" = some tok <;>
        simp [h1, hcid, hst]

/-- C1: a request from an allow-listed IP with the right token, a channel id,
a valid resource state and a successful publish gets a 200 and exactly one
published event; a request failing any of the four validation checks
publishes nothing. -/
theorem webhook_spec (allowed_ips : List String) (tok : String)
    (client_ip : String) (hs : Headers) (publish_ok : Bool) (now : String) :
    ((validate_ip allowed_ips client_ip = true →
      headerGet hs "X-Goog-Channel-Token" = some tok →
      (headerGet hs "X-Goog-Channel-Id").isSome = true →
      (∃ st, headerGet hs "X-Goog-Resource-State" = some st ∧
        valid_states.contains st = true) →
      publish_ok = true →
      (webhook allowed_ips tok client_ip hs publish_ok now).status = 200 ∧
      (webhook allowed_ips tok client_ip hs publish_ok now).published.length = 1)) ∧
    ((validate_ip allowed_ips client_ip = false ∨
      headerGet hs "X-Goog-Channel-Token" ≠ some tok ∨
      (headerGet hs "X-Goog-Channel-Id").isSome = false ∨
      (∀ st, headerGet hs "X-Goog-Resource-State" = some st →
        valid_states.contains st = false)) →
      (webhook allowed_ips tok client_ip hs publish_ok now).published = []) := by
  constructor
  · intro hip htok hcid hst hpub
    have hvh : validate_headers tok hs = true :=
      (validate_headers_iff tok hs).mpr ⟨htok, hcid, hst⟩
    subst hpub
    unfold webhook
    rw [if_neg (by simp [hip]), if_neg (by simp [hvh])]
    exact ⟨rfl, rfl⟩
  · intro hbad
    unfold webhook
    by_cases hip : validate_ip allowed_ips client_ip = true
    · have hvh : validate_headers tok hs = false := by
        cases hv : validate_headers tok hs
        · rfl
        · obtain ⟨htok, hcid, st, hget, hcon⟩ := (validate_headers_iff tok hs).mp hv
          rcases hbad with h | h | h | h
          · rw [h] at hip
            exact absurd hip (by decide)
          · exact absurd htok h
          · rw [h] at hcid
            exact absurd hcid (by decide)
          · rw [h st hget] at hcon
            exact absurd hcon (by decide)
      rw [if_neg (by simp [hip]), if_pos (by simp [hvh])]
    · rw [if_pos hip]

/-- Witness for `webhook_spec` on a fully valid request. -/
theorem webhook_spec_witness :
    (webhook ["127.0.0.1"] "secret" "127.0.0.1"
      [("X-Goog-Channel-Token", "secret"), ("X-Goog-Channel-Id", "chan-1"),
       ("X-Goog-Resource-State", "update")] true
      "2025-10-12T09:30:15Z").status = 200 ∧
    (webhook ["127.0.0.1"] "secret" "127.0.0.1"
      [("X-Goog-Channel-Token", "secret"), ("X-Goog-Channel-Id", "chan-1"),
       ("X-Goog-Resource-State", "update")] true
      "2025-10-12T09:30:15Z").published.length = 1 :=
  (webhook_spec ["127.0.0.1"] "secret" "127.0.0.1"
    [("X-Goog-Channel-Token", "secret"), ("X-Goog-Channel-Id", "chan-1"),
     ("X-Goog-Resource-State", "update")] true "2025-10-12T09:30:15Z").1
    (by decide) (by decide) (by decide) ⟨"update", by decide, by decide⟩ rfl

/-- C6 counterexample: a wrong token from an allow-listed IP is rejected with
status 400 — not a 401/403-equivalent — though still with nothing
published. -/
theorem webhook_bad_token_counterexample :
    (webhook ["127.0.0.1"] "secret" "127.0.0.1"
      [("X-Goog-Channel-Token", "wrong"), ("X-Goog-Channel-Id", "chan-1"),
       ("X-Goog-Resource-State", "update")] true "ts").status = 400 ∧
    ¬ ((webhook ["127.0.0.1"] "secret" "127.0.0.1"
      [("X-Goog-Channel-Token", "wrong"), ("X-Goog-Channel-Id", "chan-1"),
       ("X-Goog-Resource-State", "update")] true "ts").status = 401 ∨
      (webhook ["127.0.0.1"] "secret" "127.0.0.1"
      [("X-Goog-Channel-Token", "wrong"), ("X-Goog-Channel-Id", "chan-1"),
       ("X-Goog-Resource-State", "update")] true "ts").status = 403) ∧
    (webhook ["127.0.0.1"] "secret" "127.0.0.1"
      [("X-Goog-Channel-Token", "wrong"), ("X-Goog-Channel-Id", "chan-1"),
       ("X-Goog-Resource-State", "update")] true "ts").published = [] := by
  decide

/-- C6 (amended): a request whose verification token does not match the
configured secret publishes nothing; it is rejected with 403 when the client
IP is not allow-listed (the IP check runs first) and with 400 otherwise. -/
theorem webhook_bad_token (allowed_ips : List String) (tok : String)
    (client_ip : String) (hs : Headers) (publish_ok : Bool) (now : String)
    (h : headerGet hs "X-Goog-Channel-Token" ≠ some tok) :
    (webhook allowed_ips tok client_ip hs publish_ok now).published = [] ∧
    (webhook allowed_ips tok client_ip hs publish_ok now).status =
      (if validate_ip allowed_ips client_ip then 400 else 403) := by
  have hvh : validate_headers tok hs = false := by
    cases hv : validate_headers tok hs
    · rfl
    · exact absurd ((validate_headers_iff tok hs).mp hv).1 h
  unfold webhook
  by_cases hip : validate_ip allowed_ips client_ip = true
  · rw [if_neg (by simp [hip]), if_pos (by simp [hvh]), if_pos hip]
    exact ⟨rfl, rfl⟩
  · rw [if_pos hip, if_neg hip]
    exact ⟨rfl, rfl⟩

/-- Witness for `webhook_bad_token` from a non-allow-listed IP. -/
theorem webhook_bad_token_witness :
    headerGet [("X-Goog-Channel-Token", "wrong")] "X-Goog-Channel-Token" ≠
      some "secret" ∧
    ((webhook ["1.2.3.4"] "secret" "9.9.9.9"
        [("X-Goog-Channel-Token", "wrong")] true "ts").published = [] ∧
      (webhook ["1.2.3.4"] "secret" "9.9.9.9"
        [("X-Goog-Channel-Token", "wrong")] true "ts").status =
        (if validate_ip ["1.2.3.4"] "9.9.9.9" then 400 else 403)) :=
  ⟨by decide,
    webhook_bad_token ["1.2.3.4"] "secret" "9.9.9.9"
      [("X-Goog-Channel-Token", "wrong")] true "ts" (by decide)⟩

/-! ## Scheduler cursor theorem (C3) -/

/-- C3: a poll cycle leaves the cursor unchanged when the provider query
returns no documents (including the query-error case, which yields `[]`) or
when the webhook trigger fails; when documents are found and the trigger
succeeds, the cursor becomes the cycle's wall-clock `now` — independent of
the documents' modified times, which never enter `check_for_changes`'s
cursor computation. -/
theorem check_for_changes_cursor (last : String)
    (q : Except Unit (List DriveFile)) (webhook_ok : Bool) (now : String) :
    ((get_files_modified_after q = [] ∨ webhook_ok = false) →
      check_for_changes last q webhook_ok now = last) ∧
    (get_files_modified_after q ≠ [] → webhook_ok = true →
      check_for_changes last q webhook_ok now = now) := by
  constructor
  · intro h
    rcases h with h | h
    · simp [check_for_changes, h]
    · simp [check_for_changes, h]
  · intro h1 h2
    simp [check_for_changes, h2, List.isEmpty_eq_false.mpr h1]

/-- Witness for `check_for_changes_cursor`: one found document plus a
successful trigger advances the cursor to `now`. -/
theorem check_for_changes_cursor_witness :
    get_files_modified_after
        (.ok [⟨"doc1", "a.txt", "text/plain", "2025-10-12T09:00:00Z", some 1⟩]) ≠
      ([] : List DriveFile) ∧
    check_for_changes "2025-10-12T09:00:00Z"
        (.ok [⟨"doc1", "a.txt", "text/plain", "2025-10-12T09:00:00Z", some 1⟩])
        true "2025-10-12T09:30:00Z" = "2025-10-12T09:30:00Z" :=
  ⟨by decide,
    (check_for_changes_cursor "2025-10-12T09:00:00Z"
      (.ok [⟨"doc1", "a.txt", "text/plain", "2025-10-12T09:00:00Z", some 1⟩])
      true "2025-10-12T09:30:00Z").2 (by decide) rfl⟩

/-! ## Cursor store theorem (C4) -/

/-- C4 is a code bug: with no stored value, `get_last_sync_time` evaluates
`datetime.timedelta` on the `datetime` class, the `AttributeError` is caught,
and the function returns `None` — it never returns the ten-minutes-ago
default string the claim (and the function's own comments and log line)
describe. -/
theorem get_last_sync_time_missing (default_time : String) :
    get_last_sync_time none default_time = none := rfl

end GdriveSync
